import Mathlib

/-!
# Verification of the TypeMaster typing-tutor core

Shallow embedding of the typing-session state machine
(`src/hooks/useTypingSession.js`), the metrics engine
(`src/utils/statsCalculator.js`), the countdown timer
(`src/hooks/useTimer.js`), the progress import/export logic
(`src/utils/storage.js`, `src/context/AppContext.jsx`) and the
history reducer (`src/context/AppContext.jsx`).

JavaScript numbers are modelled as exact rationals (`ℚ`); `Math.round`
is `⌊x + 1/2⌋` (round half toward positive infinity), which is the JS
semantics for all inputs.  JSON (de)serialisation is modelled as the
identity on parsed JSON value trees: `JSON.parse (JSON.stringify v) = v`
for JSON-safe values, so export/import is analysed on the value level.
-/

/-- The two session modes: `'learning'` and `'test'`. -/
inductive Mode where
  | learning
  | test
deriving DecidableEq, Repr

/-- One record per accepted keystroke, as pushed by `handleKeyPress`:
`{ char: key, expected: expectedChar, correct: isCorrect }`.
`expected` is an `Option` because `text[currentIndex]` is `undefined`
when the index is out of range. -/
structure TypedEntry where
  char : Char
  expected : Option Char
  correct : Bool
deriving DecidableEq, Repr

/-- The mutable state owned by `useTypingSession`: cursor, per-keystroke
history, lifecycle flags and the two running counters.  The wall-clock
fields (`startTimeRef`, `elapsedTime`) are real-time quantities outside
the discrete model. -/
structure SessionState where
  currentIndex : Nat
  typedChars : List TypedEntry
  hasStarted : Bool
  isComplete : Bool
  errors : Nat
  correctCount : Nat
deriving DecidableEq, Repr

/-- The state produced by `reset` / initial `useState` values. -/
def initialSession : SessionState :=
  { currentIndex := 0, typedChars := [], hasStarted := false,
    isComplete := false, errors := 0, correctCount := 0 }

/-- `handleKeyPress(key)` from `useTypingSession`: no-op when complete or
when `text` is empty (`!text`); otherwise appends a `TypedEntry`, bumps
the matching counter, advances the cursor and sets `isComplete` once the
cursor reaches the end of `text`. -/
def handleKeyPress (text : List Char) (key : Char) (s : SessionState) : SessionState :=
  if s.isComplete || text.isEmpty then s
  else
    let expectedChar := text.get? s.currentIndex
    let isCorrect : Bool := expectedChar = some key
    let nextIndex := s.currentIndex + 1
    { currentIndex := nextIndex,
      typedChars := s.typedChars ++ [⟨key, expectedChar, isCorrect⟩],
      hasStarted := true,
      isComplete := decide (text.length ≤ nextIndex) || s.isComplete,
      errors := if isCorrect then s.errors else s.errors + 1,
      correctCount := if isCorrect then s.correctCount + 1 else s.correctCount }

/-- `handleBackspace()` from `useTypingSession`: guarded by
`mode !== 'learning' || currentIndex === 0`; removes the last entry,
moves the cursor back and decrements the counter matching the removed
entry's correctness, clamped at zero (`Math.max(0, prev - 1)`, which is
truncated `Nat` subtraction). -/
def handleBackspace (mode : Mode) (s : SessionState) : SessionState :=
  if mode ≠ Mode.learning ∨ s.currentIndex = 0 then s
  else
    let lastTyped := s.typedChars.getLast?
    { s with
      currentIndex := s.currentIndex - 1,
      typedChars := s.typedChars.dropLast,
      errors :=
        match lastTyped with
        | some e => if e.correct then s.errors else s.errors - 1
        | none => s.errors,
      correctCount :=
        match lastTyped with
        | some e => if e.correct then s.correctCount - 1 else s.correctCount
        | none => s.correctCount }

/-- The four rendering statuses returned by `getCharStatus`. -/
inductive CharStatus where
  | correct
  | incorrect
  | current
  | pending
deriving DecidableEq, Repr

/-- `getCharStatus(index)` from `useTypingSession`. -/
def getCharStatus (s : SessionState) (index : Nat) : CharStatus :=
  if h : index < s.typedChars.length then
    if (s.typedChars.get ⟨index, h⟩).correct then CharStatus.correct
    else CharStatus.incorrect
  else if index = s.currentIndex then CharStatus.current
  else CharStatus.pending

/-- A key event delivered to the session: a printable keypress or a
backspace signal. -/
inductive Event where
  | press (key : Char)
  | backspace
deriving DecidableEq, Repr

/-- Apply one key event to the session state. -/
def stepEvent (mode : Mode) (text : List Char) (s : SessionState) (e : Event) : SessionState :=
  match e with
  | Event.press k => handleKeyPress text k s
  | Event.backspace => handleBackspace mode s

/-- Run a whole event interleaving from the initial session state. -/
def runEvents (mode : Mode) (text : List Char) (events : List Event) : SessionState :=
  events.foldl (stepEvent mode text) initialSession

/-- Feed a list of plain keypresses (no backspaces) through
`handleKeyPress` from the initial state. -/
def runPresses (text : List Char) (keys : List Char) : SessionState :=
  keys.foldl (fun s k => handleKeyPress text k s) initialSession

/-- JavaScript `Math.round`: round half toward positive infinity,
`⌊x + 1/2⌋`. -/
def jsRound (x : ℚ) : ℤ := ⌊x + 1 / 2⌋

/-- Round to one decimal place: `Math.round(x * 10) / 10`. -/
def round10 (x : ℚ) : ℚ := (jsRound (x * 10) : ℚ) / 10

/-- `calculateWPM(correctChars, elapsedTimeMs)` from
`src/utils/statsCalculator.js`. -/
def calculateWPM (correctChars elapsedTimeMs : ℚ) : ℚ :=
  if elapsedTimeMs ≤ 0 then 0
  else round10 ((correctChars / 5) / (elapsedTimeMs / 60000))

/-- The WPM value before the final one-decimal rounding:
`(correctChars / 5) / (elapsedTimeMs / 60000)`. -/
def rawWPM (correctChars elapsedTimeMs : ℚ) : ℚ :=
  (correctChars / 5) / (elapsedTimeMs / 60000)

/-- `calculateAccuracy(correctChars, totalChars)` from
`src/utils/statsCalculator.js`. -/
def calculateAccuracy (correctChars totalChars : ℚ) : ℚ :=
  if totalChars ≤ 0 then 100
  else round10 (correctChars / totalChars * 100)

/-- The global mistyped-key tally, `state.mistypedKeys`.  Keys are
`Option Char` because `recordMistypedKey` is invoked with
`text[currentIndex]`, which is `undefined` out of range. -/
def Tally : Type := Option Char → Nat

/-- The `UPDATE_MISTYPED_KEYS` reducer case from `AppContext.jsx`:
`newMistypedKeys[key] = (newMistypedKeys[key] || 0) + 1`. -/
def recordMistypedKey (tally : Tally) (key : Option Char) : Tally :=
  fun k => if k = key then tally key + 1 else tally k

/-- The mistyped-key increments that one `handleKeyPress(key)` call
emits via `actions.recordMistypedKey(expectedChar)`: at most one, and
only on a mismatch of an accepted keystroke. -/
def keyPressEmits (text : List Char) (key : Char) (s : SessionState) : List (Option Char) :=
  if s.isComplete || text.isEmpty then []
  else if text.get? s.currentIndex = some key then []
  else [text.get? s.currentIndex]

/-- Session state paired with the externally owned mistyped-key tally. -/
structure FullState where
  session : SessionState
  mistypedKeys : Tally

/-- One key event acting on session state and tally together: a press
routes its emitted increments through `UPDATE_MISTYPED_KEYS`; a
backspace only calls `handleBackspace` and never touches the tally. -/
def stepFull (mode : Mode) (text : List Char) (e : Event) (st : FullState) : FullState :=
  match e with
  | Event.press k =>
      { session := handleKeyPress text k st.session,
        mistypedKeys := (keyPressEmits text k st.session).foldl recordMistypedKey st.mistypedKeys }
  | Event.backspace =>
      { st with session := handleBackspace mode st.session }

/-- The countdown-timer state from `useTimer.js`.  `timeRemaining` is a
JS number, kept as an integer count of seconds. -/
structure TimerState where
  timeRemaining : ℤ
  isRunning : Bool
  isFinished : Bool
deriving DecidableEq, Repr

namespace Timer

/-- `useTimer(initialSeconds)` initial state. -/
def init (initialSeconds : ℤ) : TimerState :=
  { timeRemaining := initialSeconds, isRunning := false, isFinished := false }

/-- `start()`: no-op if already running or finished. -/
def start (t : TimerState) : TimerState :=
  if t.isRunning || t.isFinished then t else { t with isRunning := true }

/-- `pause()`: stops the interval and clears `isRunning`. -/
def pause (t : TimerState) : TimerState :=
  { t with isRunning := false }

/-- `reset(newTime)`: pause, set `timeRemaining` to the new duration and
clear `isFinished`. -/
def reset (newTime : ℤ) (t : TimerState) : TimerState :=
  { pause t with timeRemaining := newTime, isFinished := false }

/-- One interval tick.  The interval only exists while
`isRunning && timeRemaining > 0`; the callback maps `prev ≤ 1` to the
finished state and otherwise decrements. -/
def tick (t : TimerState) : TimerState :=
  if t.isRunning ∧ 0 < t.timeRemaining then
    if t.timeRemaining ≤ 1 then
      { timeRemaining := 0, isRunning := false, isFinished := true }
    else { t with timeRemaining := t.timeRemaining - 1 }
  else t

end Timer

/-- The `ADD_HISTORY` reducer case from `AppContext.jsx`:
`[action.payload, ...state.history].slice(0, 100)`. -/
def addHistory {α : Type} (payload : α) (history : List α) : List α :=
  (payload :: history).take 100

/-- A parsed JSON value, the result of `JSON.parse` on the import
string (numbers as exact rationals). -/
inductive JsValue where
  | null
  | bool (b : Bool)
  | num (q : ℚ)
  | str (s : String)
  | arr (elems : List JsValue)
  | obj (fields : List (String × JsValue))

/-- JavaScript truthiness of a JSON value (`null`, `false`, `0` and
`""` are falsy; arrays and objects are always truthy). -/
def jsTruthy : JsValue → Bool
  | JsValue.null => false
  | JsValue.bool b => b
  | JsValue.num q => decide (q ≠ 0)
  | JsValue.str s => decide (s ≠ "")
  | JsValue.arr _ => true
  | JsValue.obj _ => true

/-- `typeof v === 'object'` on a parsed JSON value: true for objects,
arrays and `null`. -/
def jsIsObjectType : JsValue → Bool
  | JsValue.null => true
  | JsValue.arr _ => true
  | JsValue.obj _ => true
  | _ => false

/-- `Array.isArray(v)`. -/
def jsIsArray : JsValue → Bool
  | JsValue.arr _ => true
  | _ => false

/-- Property access `v.name`: `none` models `undefined`. -/
def jsGetField (v : JsValue) (name : String) : Option JsValue :=
  match v with
  | JsValue.obj fields => fields.lookup name
  | _ => none

/-- Truthiness of a possibly-`undefined` value. -/
def optTruthy : Option JsValue → Bool
  | some v => jsTruthy v
  | none => false

/-- `Array.isArray` on a possibly-`undefined` value. -/
def optIsArray : Option JsValue → Bool
  | some v => jsIsArray v
  | none => false

/-- `typeof v === 'object'` on a possibly-`undefined` value
(`typeof undefined` is `'undefined'`). -/
def optIsObjectType : Option JsValue → Bool
  | some v => jsIsObjectType v
  | none => false

/-- The JS `||`-with-default idiom `v || d` applied to a
possibly-`undefined` field. -/
def orDefault (v : Option JsValue) (d : JsValue) : JsValue :=
  match v with
  | some w => if jsTruthy w then w else d
  | none => d

/-- `exportProgress` from `storage.js` applied to the object built by
`AppContext.exportData`: spread `{history, mistypedKeys}` and add
`exportedAt` and `version: '1.0'`.  The resulting JSON value is what
`JSON.parse` recovers from the exported string. -/
def exportProgress (history mistypedKeys : JsValue) (exportedAt : String) : JsValue :=
  JsValue.obj
    [("history", history), ("mistypedKeys", mistypedKeys),
     ("exportedAt", JsValue.str exportedAt), ("version", JsValue.str "1.0")]

/-- `importProgress` from `storage.js`, validation applied to the
parsed JSON value: reject when `data.history` is truthy but not an
array, or `data.mistypedKeys` is truthy but `typeof` is not
`'object'`; otherwise return `{history: data.history || [],
mistypedKeys: data.mistypedKeys || {}}`.  `none` models the `null`
failure return. -/
def importProgress (data : JsValue) : Option (JsValue × JsValue) :=
  if jsTruthy data && jsIsObjectType data then
    let h := jsGetField data "history"
    let m := jsGetField data "mistypedKeys"
    if optTruthy h && !optIsArray h then none
    else if optTruthy m && !optIsObjectType m then none
    else some (orDefault h (JsValue.arr []), orDefault m (JsValue.obj []))
  else none

/-- The slice of app context state the import touches. -/
structure ProgressState where
  history : JsValue
  mistypedKeys : JsValue

/-- `actions.importData(jsonString)` from `AppContext.jsx`: on
`importProgress` failure return `false` and dispatch nothing; on
success dispatch `SET_HISTORY` / `SET_MISTYPED_KEYS` for each truthy
field and return `true`. -/
def importData (st : ProgressState) (data : JsValue) : Bool × ProgressState :=
  match importProgress data with
  | none => (false, st)
  | some (h, m) =>
      let st1 := if jsTruthy h then { st with history := h } else st
      let st2 := if jsTruthy m then { st1 with mistypedKeys := m } else st1
      (true, st2)

/-- The running counters agree with the entry list and the cursor: the
number of entries equals `currentIndex`, and `correctCount` / `errors`
are the number of correct / incorrect entries. -/
def countsInv (s : SessionState) : Prop :=
  s.typedChars.length = s.currentIndex ∧
  s.correctCount = (s.typedChars.filter fun e => e.correct).length ∧
  s.errors = (s.typedChars.filter fun e => !e.correct).length

/-- Cursor/completion discipline that holds in test mode, where
backspace is inert: the cursor never passes the end of `text`,
completion pins the cursor to the end, and an incomplete session on a
nonempty text has its cursor strictly inside the text. -/
def testInv (text : List Char) (s : SessionState) : Prop :=
  s.currentIndex ≤ text.length ∧
  (s.isComplete = true → s.currentIndex = text.length) ∧
  (s.isComplete = false → s.currentIndex < text.length ∨ text = [])

/-- The all-zero mistyped-key tally. -/
def emptyTally : Tally := fun _ => 0

lemma jsRound_eq_of (x : ℚ) (n : ℤ) (h1 : (n : ℚ) ≤ x + 1 / 2) (h2 : x + 1 / 2 < n + 1) :
    jsRound x = n := by
  rw [jsRound]
  exact Int.floor_eq_iff.mpr ⟨h1, h2⟩

lemma round10_eq_of (x : ℚ) (n : ℤ) (h1 : (n : ℚ) ≤ x * 10 + 1 / 2) (h2 : x * 10 + 1 / 2 < n + 1) :
    round10 x = (n : ℚ) / 10 := by
  rw [round10, jsRound_eq_of _ n h1 h2]

lemma handleKeyPress_of_complete (text : List Char) (k : Char) (s : SessionState)
    (h : s.isComplete = true) : handleKeyPress text k s = s := by
  simp [handleKeyPress, h]

lemma handleKeyPress_nil (k : Char) (s : SessionState) : handleKeyPress [] k s = s := by
  simp [handleKeyPress]

lemma handleBackspace_test (s : SessionState) : handleBackspace Mode.test s = s := by
  simp [handleBackspace]

lemma handleKeyPress_accepted (text : List Char) (k : Char) (s : SessionState)
    (hnc : s.isComplete = false) (hne : text ≠ []) :
    handleKeyPress text k s =
    { currentIndex := s.currentIndex + 1,
      typedChars := s.typedChars ++
        [⟨k, text.get? s.currentIndex, decide (text.get? s.currentIndex = some k)⟩],
      hasStarted := true,
      isComplete := decide (text.length ≤ s.currentIndex + 1),
      errors := if text.get? s.currentIndex = some k then s.errors else s.errors + 1,
      correctCount :=
        if text.get? s.currentIndex = some k then s.correctCount + 1 else s.correctCount } := by
  rw [handleKeyPress]
  have hempty : text.isEmpty = false := by
    cases text with
    | nil => exact absurd rfl hne
    | cons c cs => rfl
  rw [hnc, hempty]
  simp only [Bool.or_self, Bool.false_eq_true, if_false]
  by_cases hc : text.get? s.currentIndex = some k <;> simp [hc]

lemma handleBackspace_noop (mode : Mode) (s : SessionState)
    (h : mode ≠ Mode.learning ∨ s.currentIndex = 0) : handleBackspace mode s = s := by
  rw [handleBackspace, if_pos h]

lemma handleBackspace_concat (s : SessionState) (L : List TypedEntry) (e : TypedEntry)
    (hchars : s.typedChars = L ++ [e]) (hidx : s.currentIndex ≠ 0) :
    handleBackspace Mode.learning s =
    { s with
      currentIndex := s.currentIndex - 1,
      typedChars := L,
      errors := if e.correct then s.errors else s.errors - 1,
      correctCount := if e.correct then s.correctCount - 1 else s.correctCount } := by
  rw [handleBackspace, if_neg (by simp [hidx])]
  simp [hchars, List.getLast?_concat, List.dropLast_concat]

lemma countsInv_initial : countsInv initialSession :=
  ⟨rfl, rfl, rfl⟩

lemma countsInv_keyPress (text : List Char) (k : Char) (s : SessionState)
    (h : countsInv s) : countsInv (handleKeyPress text k s) := by
  obtain ⟨hlen, hcc, her⟩ := h
  by_cases hstop : s.isComplete = true ∨ text = []
  · have hid : handleKeyPress text k s = s := by
      rcases hstop with h1 | h1
      · exact handleKeyPress_of_complete text k s h1
      · rw [h1]; exact handleKeyPress_nil k s
    rw [hid]
    exact ⟨hlen, hcc, her⟩
  · push_neg at hstop
    obtain ⟨h1, h2⟩ := hstop
    have h1f : s.isComplete = false := by simpa using h1
    rw [handleKeyPress_accepted text k s h1f h2]
    refine ⟨?_, ?_, ?_⟩ <;> by_cases hc : text[s.currentIndex]? = some k <;>
      simp [hc, hlen, hcc, her, List.filter_append, List.get?_eq_getElem?]

lemma countsInv_backspace (mode : Mode) (s : SessionState)
    (h : countsInv s) : countsInv (handleBackspace mode s) := by
  obtain ⟨hlen, hcc, her⟩ := h
  by_cases hguard : mode ≠ Mode.learning ∨ s.currentIndex = 0
  · rw [handleBackspace_noop mode s hguard]
    exact ⟨hlen, hcc, her⟩
  · push_neg at hguard
    obtain ⟨hm, hidx⟩ := hguard
    subst hm
    rcases List.eq_nil_or_concat s.typedChars with hnil | ⟨L, b, hLb⟩
    · rw [hnil] at hlen
      simp at hlen
      omega
    · rw [List.concat_eq_append] at hLb
      rw [handleBackspace_concat s L b hLb hidx]
      rw [hLb] at hlen hcc her
      simp only [List.length_append, List.length_singleton] at hlen
      refine ⟨by simpa using by omega, ?_, ?_⟩ <;>
        cases hb : b.correct <;>
        simp [hb, List.filter_append] at hcc her ⊢ <;>
        omega

lemma countsInv_run (mode : Mode) (text : List Char) (events : List Event) :
    countsInv (runEvents mode text events) := by
  rw [runEvents]
  generalize hs : initialSession = s0
  have h0 : countsInv s0 := hs ▸ countsInv_initial
  clear hs
  induction events generalizing s0 with
  | nil => exact h0
  | cons e rest ih =>
      rw [List.foldl_cons]
      refine ih _ ?_
      cases e with
      | press k => exact countsInv_keyPress text k s0 h0
      | backspace => exact countsInv_backspace mode s0 h0

lemma testInv_initial (text : List Char) : testInv text initialSession := by
  refine ⟨Nat.zero_le _, by simp [initialSession], ?_⟩
  intro _
  cases text with
  | nil => exact Or.inr rfl
  | cons c cs => exact Or.inl (by simp [initialSession])

lemma testInv_keyPress (text : List Char) (k : Char) (s : SessionState)
    (h : testInv text s) : testInv text (handleKeyPress text k s) := by
  obtain ⟨hle, hcp, hncp⟩ := h
  by_cases hstop : s.isComplete = true ∨ text = []
  · have hid : handleKeyPress text k s = s := by
      rcases hstop with h1 | h1
      · exact handleKeyPress_of_complete text k s h1
      · rw [h1]; exact handleKeyPress_nil k s
    rw [hid]
    exact ⟨hle, hcp, hncp⟩
  · push_neg at hstop
    obtain ⟨h1, h2⟩ := hstop
    have h1f : s.isComplete = false := by simpa using h1
    have hlt : s.currentIndex < text.length := (hncp h1f).resolve_right h2
    rw [handleKeyPress_accepted text k s h1f h2]
    refine ⟨by simpa using hlt, ?_, ?_⟩
    · intro hcomp
      simp only [decide_eq_true_iff] at hcomp
      simpa using by omega
    · intro hcomp
      simp only [decide_eq_false_iff_not, not_le] at hcomp
      exact Or.inl (by simpa using hcomp)

lemma testInv_run (text : List Char) (events : List Event) :
    testInv text (runEvents Mode.test text events) := by
  rw [runEvents]
  generalize hs : initialSession = s0
  have h0 : testInv text s0 := hs ▸ testInv_initial text
  clear hs
  induction events generalizing s0 with
  | nil => exact h0
  | cons e rest ih =>
      rw [List.foldl_cons]
      refine ih _ ?_
      cases e with
      | press k => exact testInv_keyPress text k s0 h0
      | backspace => rw [stepEvent, handleBackspace_test]; exact h0

lemma length_filter_add_length_filter_not (l : List TypedEntry) :
    (l.filter fun e => e.correct).length + (l.filter fun e => !e.correct).length = l.length := by
  induction l with
  | nil => rfl
  | cons e rest ih =>
      cases hb : e.correct <;> simp [List.filter_cons, hb] <;> omega



/-- C9: in test mode a backspace event leaves the entire session state
unchanged — `handleBackspace` returns the state untouched (the guard
`mode !== 'learning'` fires), so `currentIndex`, `typedChars`,
`correctCount`, `errors`, `hasStarted` and `isComplete` all keep their
previous values, and the combined session-plus-tally state is also
unchanged. -/
theorem c9_test_mode_backspace_noop (s : SessionState) (text : List Char) (st : FullState) :
    handleBackspace Mode.test s = s ∧
    (handleBackspace Mode.test s).currentIndex = s.currentIndex ∧
    (handleBackspace Mode.test s).typedChars = s.typedChars ∧
    (handleBackspace Mode.test s).correctCount = s.correctCount ∧
    (handleBackspace Mode.test s).errors = s.errors ∧
    (handleBackspace Mode.test s).hasStarted = s.hasStarted ∧
    (handleBackspace Mode.test s).isComplete = s.isComplete ∧
    stepFull Mode.test text Event.backspace st = st := by
  have h : handleBackspace Mode.test s = s := handleBackspace_test s
  have h2 : stepFull Mode.test text Event.backspace st = st := by
    show FullState.mk (handleBackspace Mode.test st.session) st.mistypedKeys = st
    rw [handleBackspace_test]
  exact ⟨h, by rw [h], by rw [h], by rw [h], by rw [h], by rw [h], by rw [h], h2⟩

/-- C10: `ADD_HISTORY` prepends the new record at the front and keeps
only the first 100 entries (`[payload, ...history].slice(0, 100)`), so
the history length is at most 100 after every completed session,
whatever the previous history was. -/
theorem c10_history_capped_at_100 {α : Type} (payload : α) (history : List α) :
    addHistory payload history = (payload :: history).take 100 ∧
    (addHistory payload history).length ≤ 100 ∧
    (addHistory payload history).head? = some payload := by
  refine ⟨rfl, ?_, ?_⟩
  · rw [addHistory]
    simp [List.length_take]
  · rfl

/-- C2: on text `"ab"` with keystrokes `'a'` then `'x'`, the session
reports `getCharStatus 0 = correct`, `getCharStatus 1 = incorrect`,
`isComplete`, one error, and accuracy `calculateAccuracy 1 2 = 50`. -/
theorem c2_scenario_ab :
    getCharStatus (runPresses ['a', 'b'] ['a', 'x']) 0 = CharStatus.correct ∧
    getCharStatus (runPresses ['a', 'b'] ['a', 'x']) 1 = CharStatus.incorrect ∧
    (runPresses ['a', 'b'] ['a', 'x']).isComplete = true ∧
    (runPresses ['a', 'b'] ['a', 'x']).errors = 1 ∧
    calculateAccuracy ((runPresses ['a', 'b'] ['a', 'x']).correctCount : ℚ)
      ((runPresses ['a', 'b'] ['a', 'x']).typedChars.length : ℚ) = 50 := by
  refine ⟨by decide, by decide, by decide, by decide, ?_⟩
  have h1 : (runPresses ['a', 'b'] ['a', 'x']).correctCount = 1 := by decide
  have h2 : (runPresses ['a', 'b'] ['a', 'x']).typedChars.length = 2 := by decide
  rw [h1, h2]
  rw [show ((1 : ℕ) : ℚ) = 1 by norm_num, show ((2 : ℕ) : ℚ) = 2 by norm_num]
  rw [calculateAccuracy, if_neg (by norm_num), round10_eq_of _ 500 (by norm_num) (by norm_num)]
  norm_num

/-- C5 (counterexample): `calculateWPM` does not scale linearly with
the number of correct characters, because rounding to one decimal is
applied after the division: with 96000 ms elapsed, one correct
character yields 0.1 WPM but two yield 0.3 WPM, not 0.2. -/
theorem c5_wpm_not_linear :
    calculateWPM 2 96000 ≠ 2 * calculateWPM 1 96000 := by
  have h1 : calculateWPM 1 96000 = (1 : ℚ) / 10 := by
    rw [calculateWPM, if_neg (by norm_num), round10_eq_of _ 1 (by norm_num) (by norm_num)]
    norm_num
  have h2 : calculateWPM 2 96000 = (3 : ℚ) / 10 := by
    rw [calculateWPM, if_neg (by norm_num), round10_eq_of _ 3 (by norm_num) (by norm_num)]
    norm_num
  rw [h1, h2]
  norm_num

/-- C5 (amended): `calculateWPM 0 e = 0` for positive elapsed time,
`calculateWPM c 0 = 0`, and the WPM value before its final one-decimal
rounding, `rawWPM`, scales linearly with the number of correct
characters for a fixed elapsed time; the rounded `calculateWPM` itself
is not exactly linear. -/
theorem c5_wpm_zero_and_raw_linear :
    (∀ e : ℚ, 0 < e → calculateWPM 0 e = 0) ∧
    (∀ c : ℚ, calculateWPM c 0 = 0) ∧
    (∀ k c e : ℚ, rawWPM (k * c) e = k * rawWPM c e) := by
  refine ⟨?_, ?_, ?_⟩
  · intro e he
    rw [calculateWPM, if_neg (not_le.mpr he)]
    have hz : ((0 : ℚ) / 5) / (e / 60000) = 0 := by
      rw [zero_div, zero_div]
    rw [hz, round10_eq_of _ 0 (by norm_num) (by norm_num)]
    norm_num
  · intro c
    rw [calculateWPM, if_pos le_rfl]
  · intro k c e
    rw [rawWPM, rawWPM]
    ring

/-- C5 (witness): instantiating the amended theorem at elapsed time 1
evaluates `calculateWPM 0 1` to 0. -/
theorem c5_wpm_zero_witness : calculateWPM 0 1 = 0 :=
  c5_wpm_zero_and_raw_linear.1 1 one_pos

lemma timer_start_init (D : ℤ) :
    Timer.start (Timer.init D) = ⟨D, true, false⟩ := by
  rw [Timer.init, Timer.start]
  rfl

lemma timer_tick_running (t : TimerState) (h1 : t.isRunning = true) (h2 : 1 < t.timeRemaining) :
    Timer.tick t = { t with timeRemaining := t.timeRemaining - 1 } := by
  rw [Timer.tick, if_pos ⟨h1, by omega⟩, if_neg (by omega)]

lemma timer_tick_last (t : TimerState) (h1 : t.isRunning = true) (h2 : t.timeRemaining = 1) :
    Timer.tick t = ⟨0, false, true⟩ := by
  rw [Timer.tick, if_pos ⟨h1, by omega⟩, if_pos (by omega)]

lemma timer_tick_stopped (t : TimerState) (h : t.isRunning = false) :
    Timer.tick t = t := by
  rw [Timer.tick, if_neg]
  intro hc
  rw [h] at hc
  exact absurd hc.1 (by simp)

lemma timer_countdown_phase (D : ℕ) (i : ℕ) (hi : i < D) :
    Timer.tick^[i] (Timer.start (Timer.init (D : ℤ))) = ⟨(D : ℤ) - i, true, false⟩ := by
  induction i with
  | zero =>
      rw [Function.iterate_zero_apply, timer_start_init]
      norm_num
  | succ n ih =>
      have hn : n < D := by omega
      rw [Function.iterate_succ_apply', ih hn,
        timer_tick_running _ rfl (by show (1 : ℤ) < (D : ℤ) - n; omega)]
      show TimerState.mk ((D : ℤ) - n - 1) true false = ⟨(D : ℤ) - (n + 1 : ℕ), true, false⟩
      congr 1
      push_cast
      ring

lemma timer_finished_phase (D : ℕ) (hD : 0 < D) (n : ℕ) (hn : D ≤ n) :
    Timer.tick^[n] (Timer.start (Timer.init (D : ℤ))) = ⟨0, false, true⟩ := by
  induction n with
  | zero => omega
  | succ m ih =>
      rcases Nat.lt_or_ge D (m + 1) with hlt | hge
      · have hDm : D ≤ m := by omega
        rw [Function.iterate_succ_apply', ih hDm, timer_tick_stopped _ rfl]
      · have hDm : D = m + 1 := by omega
        have hm : m < D := by omega
        rw [Function.iterate_succ_apply', timer_countdown_phase D m hm,
          timer_tick_last _ rfl (by show (D : ℤ) - m = 1; omega)]

/-- C8: a countdown started at duration `D > 0` counts down once per
tick while running; strictly before `D` ticks it is unfinished with
`D - i` seconds left, from the `D`-th tick on it is exactly
`{timeRemaining := 0, isFinished := true}` (so the `Finished`
transition happens exactly once, at tick `D`), `timeRemaining` is never
negative, and `start()` on a running or finished timer changes
nothing. -/
theorem c8_countdown_timer (D : ℕ) (hD : 0 < D) :
    (∀ i : ℕ, i < D → Timer.tick^[i] (Timer.start (Timer.init (D : ℤ))) =
      ⟨(D : ℤ) - i, true, false⟩) ∧
    (∀ n : ℕ, D ≤ n → Timer.tick^[n] (Timer.start (Timer.init (D : ℤ))) = ⟨0, false, true⟩) ∧
    (∀ n : ℕ, 0 ≤ (Timer.tick^[n] (Timer.start (Timer.init (D : ℤ)))).timeRemaining) ∧
    (∀ t : TimerState, t.isRunning = true ∨ t.isFinished = true → Timer.start t = t) := by
  refine ⟨fun i hi => timer_countdown_phase D i hi,
    fun n hn => timer_finished_phase D hD n hn, ?_, ?_⟩
  · intro n
    rcases Nat.lt_or_ge n D with hlt | hge
    · rw [timer_countdown_phase D n hlt]
      show (0 : ℤ) ≤ (D : ℤ) - n
      omega
    · rw [timer_finished_phase D hD n hge]
  · intro t ht
    rw [Timer.start, if_pos]
    rcases ht with h | h <;> rw [h] <;> simp

/-- C8 (witness): at duration 2, two ticks reach the finished state
with zero seconds remaining. -/
theorem c8_countdown_timer_witness :
    Timer.tick^[2] (Timer.start (Timer.init ((2 : ℕ) : ℤ))) = ⟨0, false, true⟩ :=
  (c8_countdown_timer 2 (by decide)).2.1 2 (le_refl 2)

/-- C1 (counterexample): the invariant set does not survive every
interleaving — in learning mode, after completing the text `"a"` with
one correct keystroke, a backspace is still accepted
(`handleBackspace` never checks `isComplete`), mutating the state after
completion and leaving `isComplete = true` with `currentIndex = 0`
instead of `length(text) = 1`. -/
theorem c1_backspace_after_complete_cex :
    (runEvents Mode.learning ['a'] [Event.press 'a', Event.backspace]).isComplete = true ∧
    (runEvents Mode.learning ['a'] [Event.press 'a', Event.backspace]).currentIndex = 0 ∧
    runEvents Mode.learning ['a'] [Event.press 'a', Event.backspace] ≠
      runEvents Mode.learning ['a'] [Event.press 'a'] := by
  refine ⟨by decide, by decide, by decide⟩

/-- C1 (amended): for every mode, text and interleaving of key events,
the reached state satisfies `correctCount + errors = currentIndex` and
`currentIndex = length(typedChars)`, and a completed state rejects
every further `handleKeyPress`.  The remaining two clauses of the
original invariant set hold in test mode, where backspace is inert:
there `isComplete` implies `currentIndex = length(text)` and a
backspace event also leaves the state unchanged.  (In learning mode a
backspace arriving after completion still mutates the state, as the
counterexample shows.) -/
theorem c1_session_invariants (mode : Mode) (text : List Char) (events : List Event) (k : Char) :
    (runEvents mode text events).correctCount + (runEvents mode text events).errors =
      (runEvents mode text events).currentIndex ∧
    (runEvents mode text events).typedChars.length = (runEvents mode text events).currentIndex ∧
    ((runEvents mode text events).isComplete = true →
      handleKeyPress text k (runEvents mode text events) = runEvents mode text events) ∧
    (mode = Mode.test →
      ((runEvents mode text events).isComplete = true →
        (runEvents mode text events).currentIndex = text.length) ∧
      handleBackspace mode (runEvents mode text events) = runEvents mode text events) := by
  obtain ⟨hlen, hcc, her⟩ := countsInv_run mode text events
  refine ⟨?_, hlen, ?_, ?_⟩
  · rw [hcc, her, ← hlen]
    exact length_filter_add_length_filter_not _
  · intro hcomp
    exact handleKeyPress_of_complete text k _ hcomp
  · intro hmode
    subst hmode
    obtain ⟨-, hcp, -⟩ := testInv_run text events
    exact ⟨hcp, handleBackspace_test _⟩

/-- C1 (witness): in test mode on text `"a"`, after pressing `'a'` the
completed session has its cursor at the end of the text. -/
theorem c1_session_invariants_witness :
    (runEvents Mode.test ['a'] [Event.press 'a']).currentIndex = (['a'] : List Char).length :=
  (((c1_session_invariants Mode.test ['a'] [Event.press 'a'] 'a').2.2.2 rfl).1 (by decide))

lemma runPresses_completes_aux (keys : List Char) : ∀ (text : List Char) (s : SessionState),
    text ≠ [] → s.isComplete = false → s.currentIndex + keys.length = text.length →
    keys ≠ [] →
    (keys.foldl (fun t c => handleKeyPress text c t) s).isComplete = true := by
  induction keys with
  | nil => intro text s _ _ _ hk; exact absurd rfl hk
  | cons k rest ih =>
      intro text s hne hnc hsum _
      rw [List.foldl_cons, handleKeyPress_accepted text k s hnc hne]
      rcases List.eq_nil_or_concat rest with hrest | ⟨_, _, hconcat⟩
      · subst hrest
        rw [List.foldl_nil]
        show decide (text.length ≤ s.currentIndex + 1) = true
        rw [decide_eq_true_iff]
        simp at hsum
        omega
      · have hrne : rest ≠ [] := by rw [hconcat]; simp
        refine ih text _ hne ?_ ?_ hrne
        · show decide (text.length ≤ s.currentIndex + 1) = false
          rw [decide_eq_false_iff_not, not_le]
          have : 0 < rest.length := List.length_pos.mpr hrne
          simp at hsum
          omega
        · show s.currentIndex + 1 + rest.length = text.length
          simp at hsum
          omega

/-- C4 (counterexample): the universal completion claim fails at the
empty text — the keystroke sequence of length `length("") = 0` is the
empty one, and feeding it leaves the session not complete (and not
started), contradicting `isComplete == true`. -/
theorem c4_empty_text_cex :
    (runPresses [] []).isComplete = false := by decide

/-- C4 (amended): for every nonempty text, feeding any keystroke
sequence of length `length(text)` through `handleKeyPress` — correct
or not — completes the session; on the empty text every keystroke
sequence is rejected outright, so the session never starts and never
completes. -/
theorem c4_full_sequence_completes (text keys ks : List Char) :
    (text ≠ [] → keys.length = text.length → (runPresses text keys).isComplete = true) ∧
    runPresses [] ks = initialSession ∧
    (runPresses [] ks).hasStarted = false ∧
    (runPresses [] ks).isComplete = false := by
  have hempty : runPresses [] ks = initialSession := by
    rw [runPresses]
    induction ks with
    | nil => rfl
    | cons c rest ih => rw [List.foldl_cons, handleKeyPress_nil]; exact ih
  refine ⟨?_, hempty, by rw [hempty]; rfl, by rw [hempty]; rfl⟩
  intro hne hlen
  have hkne : keys ≠ [] := by
    intro hk
    rw [hk] at hlen
    exact hne (List.length_eq_zero.mp hlen.symm)
  refine runPresses_completes_aux keys text initialSession hne rfl ?_ hkne
  show 0 + keys.length = text.length
  omega

/-- C4 (witness): the all-wrong two-keystroke sequence on text `"ab"`
completes the session. -/
theorem c4_full_sequence_completes_witness :
    (runPresses ['a', 'b'] ['z', 'z']).isComplete = true :=
  (c4_full_sequence_completes ['a', 'b'] ['z', 'z'] []).1 (by decide) rfl

/-- C3 (counterexample): the round trip fails on a completed session —
in learning mode on text `"a"`, after typing `'a'` the state has
`currentIndex = 1 > 0`, but backspace followed by re-typing `'a'` does
not restore it: the re-typed keystroke is rejected because
`isComplete` is still `true`, so `currentIndex` ends at 0, not 1. -/
theorem c3_roundtrip_complete_cex :
    (runPresses ['a'] ['a']).currentIndex = 1 ∧
    (handleKeyPress ['a'] 'a'
      (handleBackspace Mode.learning (runPresses ['a'] ['a']))).currentIndex = 0 := by
  refine ⟨by decide, by decide⟩

/-- C3 (amended): in learning mode, for every *incomplete* session
state with `currentIndex > 0` whose last entry is consistent with the
session (the entry sits at position `currentIndex - 1`, its recorded
expectation and correctness flag come from `text` there, and the
counter it was counted in is positive), backspace followed by
re-typing the removed character restores `typedChars`, `correctCount`,
`errors` and `currentIndex` exactly.  On a completed state the
re-typed keystroke is rejected and the round trip fails, as the
counterexample shows. -/
theorem c3_backspace_retype_roundtrip (text : List Char) (s : SessionState)
    (L : List TypedEntry) (e : TypedEntry)
    (hchars : s.typedChars = L ++ [e])
    (hlen : s.currentIndex = L.length + 1)
    (hnc : s.isComplete = false)
    (hne : text ≠ [])
    (hexp : e.expected = text.get? L.length)
    (hcorr : e.correct = decide (text.get? L.length = some e.char))
    (hcc : e.correct = true → 0 < s.correctCount)
    (her : e.correct = false → 0 < s.errors) :
    (handleKeyPress text e.char (handleBackspace Mode.learning s)).typedChars = s.typedChars ∧
    (handleKeyPress text e.char (handleBackspace Mode.learning s)).currentIndex =
      s.currentIndex ∧
    (handleKeyPress text e.char (handleBackspace Mode.learning s)).correctCount =
      s.correctCount ∧
    (handleKeyPress text e.char (handleBackspace Mode.learning s)).errors = s.errors := by
  have hidx : s.currentIndex ≠ 0 := by omega
  rw [handleBackspace_concat s L e hchars hidx]
  rw [handleKeyPress_accepted text e.char
    { currentIndex := s.currentIndex - 1, typedChars := L, hasStarted := s.hasStarted,
      isComplete := s.isComplete,
      errors := if e.correct then s.errors else s.errors - 1,
      correctCount := if e.correct then s.correctCount - 1 else s.correctCount }
    hnc hne]
  have hpos : s.currentIndex - 1 = L.length := by omega
  have hcorr2 : e.correct = decide (e.expected = some e.char) := by
    rw [hexp]
    exact hcorr
  refine ⟨?_, ?_, ?_, ?_⟩
  · show L ++ [⟨e.char, text.get? (s.currentIndex - 1),
      decide (text.get? (s.currentIndex - 1) = some e.char)⟩] = s.typedChars
    rw [hpos, hchars, ← hexp, ← hcorr2]
  · show s.currentIndex - 1 + 1 = s.currentIndex
    omega
  · show (if text.get? (s.currentIndex - 1) = some e.char then
        (if e.correct then s.correctCount - 1 else s.correctCount) + 1
      else if e.correct then s.correctCount - 1 else s.correctCount) = s.correctCount
    rw [hpos]
    by_cases hmatch : text.get? L.length = some e.char
    · have hct : e.correct = true := by rw [hcorr, decide_eq_true_iff]; exact hmatch
      have h1 := hcc hct
      simp only [if_pos hmatch, hct, eq_self_iff_true, if_true]
      omega
    · have hcf : e.correct = false := by rw [hcorr, decide_eq_false_iff_not]; exact hmatch
      simp only [if_neg hmatch, hcf, Bool.false_eq_true, if_false]
  · show (if text.get? (s.currentIndex - 1) = some e.char then
        (if e.correct then s.errors else s.errors - 1)
      else (if e.correct then s.errors else s.errors - 1) + 1) = s.errors
    rw [hpos]
    by_cases hmatch : text.get? L.length = some e.char
    · have hct : e.correct = true := by rw [hcorr, decide_eq_true_iff]; exact hmatch
      simp only [if_pos hmatch, hct, eq_self_iff_true, if_true]
    · have hcf : e.correct = false := by rw [hcorr, decide_eq_false_iff_not]; exact hmatch
      have h2 := her hcf
      simp only [if_neg hmatch, hcf, Bool.false_eq_true, if_false]
      omega

/-- C3 (witness): on text `"ab"` after one correct keystroke `'a'`,
backspace followed by re-typing `'a'` restores the cursor position. -/
theorem c3_backspace_retype_roundtrip_witness :
    (handleKeyPress ['a', 'b'] 'a'
      (handleBackspace Mode.learning (runPresses ['a', 'b'] ['a']))).currentIndex =
      (runPresses ['a', 'b'] ['a']).currentIndex :=
  (c3_backspace_retype_roundtrip ['a', 'b'] (runPresses ['a', 'b'] ['a'])
    [] ⟨'a', some 'a', true⟩ (by decide) (by decide) (by decide) (by decide)
    (by decide) (by decide) (fun _ => by decide) (fun h => by simp at h)).2.1

/-- C6: whenever an accepted keystroke differs from the expected
character `text[currentIndex]`, exactly one mistyped-key increment is
emitted and it is keyed by the *expected* character, not the typed
one; the tally entry for the expected character grows by one, every
other entry is untouched, and a backspace event never changes the
tally at all, so it is a lifetime mistake count. -/
theorem c6_mistype_records_expected (mode : Mode) (text : List Char) (key : Char)
    (st : FullState) (k : Option Char)
    (hnc : st.session.isComplete = false)
    (ht : text ≠ [])
    (hmm : text.get? st.session.currentIndex ≠ some key) :
    keyPressEmits text key st.session = [text.get? st.session.currentIndex] ∧
    (stepFull mode text (Event.press key) st).mistypedKeys (text.get? st.session.currentIndex) =
      st.mistypedKeys (text.get? st.session.currentIndex) + 1 ∧
    (k ≠ text.get? st.session.currentIndex →
      (stepFull mode text (Event.press key) st).mistypedKeys k = st.mistypedKeys k) ∧
    (stepFull mode text Event.backspace st).mistypedKeys = st.mistypedKeys := by
  have hempty : text.isEmpty = false := by
    cases text with
    | nil => exact absurd rfl ht
    | cons a l => rfl
  have hemits : keyPressEmits text key st.session = [text.get? st.session.currentIndex] := by
    rw [keyPressEmits, hnc, hempty]
    rw [if_neg (by simp), if_neg hmm]
  refine ⟨hemits, ?_, ?_, rfl⟩
  · show ((keyPressEmits text key st.session).foldl recordMistypedKey st.mistypedKeys)
      (text.get? st.session.currentIndex) =
      st.mistypedKeys (text.get? st.session.currentIndex) + 1
    rw [hemits]
    show recordMistypedKey st.mistypedKeys (text.get? st.session.currentIndex)
      (text.get? st.session.currentIndex) =
      st.mistypedKeys (text.get? st.session.currentIndex) + 1
    rw [recordMistypedKey, if_pos rfl]
  · intro hk
    show ((keyPressEmits text key st.session).foldl recordMistypedKey st.mistypedKeys) k =
      st.mistypedKeys k
    rw [hemits]
    show recordMistypedKey st.mistypedKeys (text.get? st.session.currentIndex) k =
      st.mistypedKeys k
    rw [recordMistypedKey, if_neg hk]

/-- C6 (witness): on text `"a"` with wrong key `'b'` from the initial
state, one increment keyed by `'a'` is emitted; the tally at `'a'`
becomes 1, the tally at `'x'` stays 0, and a backspace leaves the
tally untouched. -/
theorem c6_mistype_records_expected_witness :
    keyPressEmits ['a'] 'b' initialSession = [some 'a'] ∧
    (stepFull Mode.learning ['a'] (Event.press 'b')
      ⟨initialSession, emptyTally⟩).mistypedKeys (some 'a') = 1 ∧
    (stepFull Mode.learning ['a'] (Event.press 'b')
      ⟨initialSession, emptyTally⟩).mistypedKeys (some 'x') = 0 ∧
    (stepFull Mode.learning ['a'] Event.backspace
      ⟨initialSession, emptyTally⟩).mistypedKeys = emptyTally := by
  have h := c6_mistype_records_expected Mode.learning ['a'] 'b'
    ⟨initialSession, emptyTally⟩ (some 'x') rfl (by decide) (by decide)
  exact ⟨h.1, h.2.1, h.2.2.1 (by decide), h.2.2.2⟩

/-- C7 (counterexample): an import whose `mistypedKeys` field is
present but is an array — not a flat mapping — does *not* fail:
`typeof [] === 'object'` in JavaScript, so `importProgress` accepts it
and returns the array as the new `mistypedKeys`. -/
theorem c7_array_mistyped_keys_cex :
    importProgress (JsValue.obj [("mistypedKeys", JsValue.arr [JsValue.num 1])]) =
      some (JsValue.arr [], JsValue.arr [JsValue.num 1]) := by
  rfl

/-- C7 (amended): importing the export of a history list and a
mistyped-keys mapping reproduces both exactly (and `importData`
installs them); an import whose `history` field is present and truthy
but not an array fails, as does one whose `mistypedKeys` field is
present and truthy but not of JavaScript object type — but an
array-valued `mistypedKeys` passes the `typeof` check and is accepted,
and falsy fields (`0`, `""`, `false`, `null`) are replaced by defaults
rather than rejected; every failed import returns `false` and leaves
the existing history and mistyped-keys state unchanged. -/
theorem c7_export_import_roundtrip (xs : List JsValue) (fields : List (String × JsValue))
    (ts : String) (st : ProgressState) (fl : List (String × JsValue)) (v w d : JsValue) :
    importProgress (exportProgress (JsValue.arr xs) (JsValue.obj fields) ts) =
      some (JsValue.arr xs, JsValue.obj fields) ∧
    importData st (exportProgress (JsValue.arr xs) (JsValue.obj fields) ts) =
      (true, ⟨JsValue.arr xs, JsValue.obj fields⟩) ∧
    (fl.lookup "history" = some v → jsTruthy v = true → jsIsArray v = false →
      importProgress (JsValue.obj fl) = none) ∧
    (fl.lookup "mistypedKeys" = some w → jsTruthy w = true → jsIsObjectType w = false →
      importProgress (JsValue.obj fl) = none) ∧
    (importProgress d = none → importData st d = (false, st)) := by
  have hrt : importProgress (exportProgress (JsValue.arr xs) (JsValue.obj fields) ts) =
      some (JsValue.arr xs, JsValue.obj fields) := by
    rw [exportProgress, importProgress]
    rfl
  refine ⟨hrt, ?_, ?_, ?_, ?_⟩
  · rw [importData, hrt]
    rfl
  · intro hv htr har
    rw [importProgress, if_pos (by rfl)]
    have hh : jsGetField (JsValue.obj fl) "history" = some v := hv
    rw [hh]
    rw [if_pos (by rw [optTruthy, htr, optIsArray, har]; rfl)]
  · intro hw htr hob
    rw [importProgress, if_pos (by rfl)]
    have hm : jsGetField (JsValue.obj fl) "mistypedKeys" = some w := hw
    rw [hm]
    by_cases hfirst : (optTruthy (jsGetField (JsValue.obj fl) "history") &&
        !optIsArray (jsGetField (JsValue.obj fl) "history")) = true
    · rw [if_pos hfirst]
    · rw [if_neg hfirst,
        if_pos (by rw [optTruthy, htr, optIsObjectType, hob]; rfl)]
  · intro hnone
    rw [importData, hnone]

/-- C7 (witness): a `history` field holding the number 5 is present,
truthy and not an array, so the import fails; and a failed import of
that value leaves a concrete state unchanged and returns `false`. -/
theorem c7_export_import_roundtrip_witness :
    importProgress (JsValue.obj [("history", JsValue.num 5)]) = none ∧
    importData ⟨JsValue.arr [], JsValue.obj []⟩ (JsValue.obj [("history", JsValue.num 5)]) =
      (false, ⟨JsValue.arr [], JsValue.obj []⟩) := by
  have h := c7_export_import_roundtrip [] [] "" ⟨JsValue.arr [], JsValue.obj []⟩
    [("history", JsValue.num 5)] (JsValue.num 5) JsValue.null
    (JsValue.obj [("history", JsValue.num 5)])
  have hfail : importProgress (JsValue.obj [("history", JsValue.num 5)]) = none :=
    h.2.2.1 rfl rfl rfl
  exact ⟨hfail, h.2.2.2.2 hfail⟩
